import Mathlib

/-!
# MemoryPingBot — verification of the spec's claims against the source

Shallow embedding of the core of `src/reminder_botv4.py` (with
`src/reminder_bot.py` consulted where a claim cites it).  Instants are
modelled as natural numbers of minutes since an epoch whose day 0 is a
Monday, so `weekday t = (t / 1440) % 7` matches Python's
`datetime.weekday()` convention (Monday = 0, Saturday = 5, Sunday = 6).
`datetime.replace(hour=h, minute=m, second=0, microsecond=0)` becomes
truncation to the day followed by `h*60 + m`; `timedelta(days=1)` is
`+ 1440`.

Regular-expression matching over the raw expression string is abstracted
into a structured input record: each field of `TimeInput` carries the
match result (captured groups) of the corresponding pattern of
`parse_time`, and the Lean `parse_time` reproduces the source's cascade
over those results — the family precedence, the `tomorrow` handling, the
"at least one group" guard of the relative form, the am/pm hour
normalisation and the roll-forward rule are all translated line by line
from `src/reminder_botv4.py:18-79`.
-/

namespace MemoryPing

/-- Minutes in a day; `timedelta(days=1)` is `+ minutesPerDay`. -/
def minutesPerDay : Nat := 1440

/-- Model of `current_time.replace(hour=h, minute=m, second=0, microsecond=0)`:
keep the date of `t`, set the wall clock to `h:m`. -/
def replaceTime (t h m : Nat) : Nat :=
  (t / minutesPerDay) * minutesPerDay + h * 60 + m

/-- Model of `datetime.weekday()`: day 0 of the epoch is a Monday. -/
def weekday (t : Nat) : Nat :=
  (t / minutesPerDay) % 7

/-- The keys of the `special_times` table of `parse_time`
(`src/reminder_botv4.py:29-33`). -/
inductive SpecialPhrase where
  | lunch | afterLunch | bedtime | beforeBed | evening | afternoon | morning
deriving DecidableEq, Repr

/-- The hour-of-day values of the `special_times` table. -/
def specialHour : SpecialPhrase → Nat
  | .lunch => 13
  | .afterLunch => 13
  | .bedtime => 22
  | .beforeBed => 22
  | .evening => 18
  | .afternoon => 14
  | .morning => 8

/-- The `am`/`pm` capture of the 12-hour-clock pattern. -/
inductive Period where
  | am | pm
deriving DecidableEq, Repr

/-- The am/pm normalisation of `parse_time` (`src/reminder_botv4.py:57-60`):
`pm` adds 12 unless the hour is 12; `am` maps 12 to 0. -/
def normalizeAmPm (h : Nat) : Period → Nat
  | .pm => if h ≠ 12 then h + 12 else h
  | .am => if h = 12 then 0 else h

/-- The structured form of a time expression: for each regex / table of
`parse_time`, the result of matching it against the (lowercased,
`tomorrow`-stripped) expression string.  `none` means the pattern did not
match; captured groups that are optional in the regex are `Option Nat`. -/
structure TimeInput where
  /-- Whether `"tomorrow" in time_str` held before stripping. -/
  isTomorrow : Bool
  /-- first `special_times` phrase contained in the string, if any. -/
  special : Option SpecialPhrase
  /-- The `complex_pattern` match: (hours group, minutes group), each optional. -/
  rel : Option (Option Nat × Option Nat)
  /-- The `ampm_pattern` match: (hour, optional minutes, am/pm). -/
  ampm : Option (Nat × Option Nat × Period)
  /-- The `at_pattern` match: (hour, minutes). -/
  at24 : Option (Nat × Nat)
deriving DecidableEq, Repr

/-- The last two families of `parse_time` (`src/reminder_botv4.py:50-78`):
the 12-hour clock, then the 24-hour clock, else `None`. -/
def parseClockFamilies (inp : TimeInput) (current : Nat) : Option Nat :=
  match inp.ampm with
  | some (h, mo, period) =>
      let hour := normalizeAmPm h period
      let minute := mo.getD 0
      let rt := replaceTime current hour minute
      some (if inp.isTomorrow ∨ rt ≤ current then rt + minutesPerDay else rt)
  | none =>
      match inp.at24 with
      | some (h, m) =>
          let rt := replaceTime current h m
          some (if inp.isTomorrow ∨ rt ≤ current then rt + minutesPerDay else rt)
      | none => none

/-- Translation of `parse_time` (`src/reminder_botv4.py:18-79`): the keyword table first,
then the relative-offset pattern guarded by `match and (group(1) or
group(2))`, then the clock families. -/
def parse_time (inp : TimeInput) (current : Nat) : Option Nat :=
  match inp.special with
  | some p =>
      let rt := replaceTime current (specialHour p) 0
      some (if inp.isTomorrow ∨ rt ≤ current then rt + minutesPerDay else rt)
  | none =>
      match inp.rel with
      | some (g1, g2) =>
          if g1.isSome || g2.isSome then
            some (current + (g1.getD 0) * 60 + g2.getD 0)
          else
            parseClockFamilies inp current
      | none => parseClockFamilies inp current

/-- The recurrence rules stored in a reminder's `recurring` field. -/
inductive Recurring where
  | daily | weekly | monthly | weekday
deriving DecidableEq, Repr

theorem weekday_lt_seven (d : Nat) : weekday d < 7 :=
  Nat.mod_lt _ (by norm_num)

theorem weekday_add_day (d : Nat) :
    weekday (d + minutesPerDay) = (weekday d + 1) % 7 := by
  simp only [weekday, minutesPerDay]
  rw [Nat.add_div_right d (by norm_num), Nat.add_mod]

/-- The `while next_time.weekday() >= 5: next_time += timedelta(days=1)`
loop of `send_reminder` (`src/reminder_botv4.py:770-772`). -/
def skipWeekend (d : Nat) : Nat :=
  if weekday d ≥ 5 then skipWeekend (d + minutesPerDay) else d
termination_by (if weekday d ≥ 5 then 7 - weekday d else 0)
decreasing_by
  have h1 := weekday_add_day d
  have h2 := weekday_lt_seven d
  have h3 := weekday_lt_seven (d + minutesPerDay)
  split_ifs <;> omega

/-- The recurrence step of `send_reminder` (`src/reminder_botv4.py:758-772`):
daily `+1 day`, weekly `+1 week`, monthly `+30 days`, weekday `+1 day`
then skip the weekend. -/
def nextOccurrence (t : Nat) : Recurring → Nat
  | .daily => t + minutesPerDay
  | .weekly => t + 7 * minutesPerDay
  | .monthly => t + 30 * minutesPerDay
  | .weekday => skipWeekend (t + minutesPerDay)

/-!
## The reminder store and the engine

Python dictionaries are modelled as association lists with
insert-or-replace assignment (`d[k] = v`) and key removal (`del d[k]`);
`k in d` is `AList.hasKey`.  A reminder id
`f"{chat_id}_{remind_time.timestamp()}_{len(reminders)}"` is modelled as
the triple of its three components (the components contain no `_`, so the
formatted strings are equal exactly when the triples are).
-/

/-- Read `d[k]` on a Python dict (`None` when the key is absent). -/
def AList.get? {α β : Type} [DecidableEq α] :
    List (α × β) → α → Option β
  | [], _ => none
  | p :: t, k => if p.1 = k then some p.2 else AList.get? t k

/-- Test `k in d` on a Python dict. -/
def AList.hasKey {α β : Type} [DecidableEq α] (l : List (α × β)) (k : α) :
    Bool :=
  l.any (fun p => decide (p.1 = k))

/-- Assignment `d[k] = v` on a Python dict: replace in place if the key exists,
else append (dicts preserve insertion order). -/
def AList.set {α β : Type} [DecidableEq α] (l : List (α × β)) (k : α)
    (v : β) : List (α × β) :=
  if AList.hasKey l k then
    l.map (fun p => if p.1 = k then (k, v) else p)
  else l ++ [(k, v)]

/-- Removal `del d[k]` on a Python dict. -/
def AList.del {α β : Type} [DecidableEq α] (l : List (α × β)) (k : α) :
    List (α × β) :=
  l.filter (fun p => decide (p.1 ≠ k))

/-- The reminder id minted at `src/reminder_botv4.py:1401` from the chat
id, the due time and the current store size, as its component triple. -/
abbrev ReminderId := Nat × Nat × Nat

/-- A record of `data_manager.reminders` (`src/reminder_botv4.py:1403-1414`). -/
structure Reminder where
  chat_id : Nat
  message : String
  time : Nat
  recurring : Option Recurring
  category : String
  priority : String
  notes : String
  shared_with : List Nat
  completed : Bool
  created_at : Nat
deriving DecidableEq, Repr

/-- The `data_manager.reminders` collection. -/
abbrev Store := List (ReminderId × Reminder)

/-- A record of `data_manager.stats` for one chat.  The Python code reads
every field with `.get(key, 0)`, so the two initial shapes it writes
(`{'created':0,'completed':0,'snoozed':0,'xp':0}` in `update_stats` and
`{'xp':0,'level':1}` in `update_xp`) are both the all-zero record here. -/
structure UserStats where
  created : Nat := 0
  completed : Nat := 0
  snoozed : Nat := 0
  xp : Nat := 0
deriving DecidableEq, Repr

/-- The `data_manager.stats` collection, keyed by chat id. -/
abbrev Stats := List (Nat × UserStats)

/-- The state the claims touch: the reminders collection, the per-user
stats, and the per-user achievement lists held in `user_data` (the
remaining `user_data` fields, habits and moods collections are disjoint
keyed files no claim mentions). -/
structure EngineState where
  reminders : Store
  stats : Stats
  userAch : List (Nat × List String)
deriving DecidableEq, Repr

/-- The empty engine state (all backing files empty). -/
def EngineState.empty : EngineState := ⟨[], [], []⟩

/-- The counter actions of `update_stats`. -/
inductive StatAction where
  | created | completed | snoozed
deriving DecidableEq, Repr

/-- Translation of `MemoryPingEngine.update_stats` (`src/reminder_botv4.py:1474-1481`):
initialise the chat's record to zeros when absent, then bump the field. -/
def update_stats (st : Stats) (chat : Nat) (action : StatAction) : Stats :=
  let cur := (AList.get? st chat).getD {}
  let next :=
    match action with
    | .created => { cur with created := cur.created + 1 }
    | .completed => { cur with completed := cur.completed + 1 }
    | .snoozed => { cur with snoozed := cur.snoozed + 1 }
  AList.set st chat next

/-- Constant `XP_PER_COMPLETION = 10` (`src/reminder_botv4.py:1065`). -/
def XP_PER_COMPLETION : Int := 10

/-- Translation of `MemoryPingEngine.update_xp` (`src/reminder_botv4.py:1358-1377`),
restricted to its stats mutation `xp = max(0, xp + amount)`; its level-up
return value is read by no caller the claims depend on. -/
def update_xp (st : Stats) (chat : Nat) (amount : Int) : Stats :=
  let cur := (AList.get? st chat).getD {}
  AList.set st chat { cur with xp := (max 0 ((cur.xp : Int) + amount)).toNat }

/-- The `xp` column of the `ACHIEVEMENTS` table
(`src/reminder_botv4.py:1222-1236`). -/
def achievementXP (key : String) : Nat :=
  if key = "first_reminder" then 50
  else if key = "streak_3" then 30
  else if key = "streak_7" then 75
  else if key = "streak_30" then 300
  else if key = "complete_10" then 100
  else if key = "complete_50" then 500
  else if key = "complete_100" then 1000
  else if key = "early_bird" then 25
  else if key = "night_owl" then 25
  else if key = "organized" then 150
  else if key = "perfect_week" then 200
  else 0

/-- The `achievement_checks` milestone list of `check_achievements`
(`src/reminder_botv4.py:1504-1509`). -/
def achievementMilestones : List (Nat × String) :=
  [(1, "first_reminder"), (10, "complete_10"),
   (50, "complete_50"), (100, "complete_100")]

/-- The `for milestone, ach_key in achievement_checks` loop of
`check_achievements`: award the first unearned milestone that equals the
completed count, adding its XP when positive. -/
def milestoneLoop (s : EngineState) (chat completedCount : Nat)
    (ach : List String) : List (Nat × String) → EngineState × Option String
  | [] => (s, none)
  | (milestone, key) :: rest =>
      if completedCount = milestone && !(ach.contains key) then
        let s1 := { s with userAch := AList.set s.userAch chat (ach ++ [key]) }
        let s2 :=
          if achievementXP key > 0 then
            { s1 with stats := update_xp s1.stats chat (achievementXP key) }
          else s1
        (s2, some key)
      else milestoneLoop s chat completedCount ach rest

/-- Translation of `MemoryPingEngine.check_achievements` (`src/reminder_botv4.py:1493-1523`):
`None` when the chat has no stats record; otherwise ensure the
achievements list exists and run the milestone loop over the completed
count. -/
def check_achievements (s : EngineState) (chat : Nat) :
    EngineState × Option String :=
  match AList.get? s.stats chat with
  | none => (s, none)
  | some st =>
      let ach := (AList.get? s.userAch chat).getD []
      let s0 :=
        if (AList.get? s.userAch chat).isNone then
          { s with userAch := AList.set s.userAch chat [] }
        else s
      milestoneLoop s0 chat st.completed ach achievementMilestones

/-- Translation of `MemoryPingEngine.complete_reminder` (`src/reminder_botv4.py:1437-1450`):
when the id is present, set its `completed` flag in place, bump the
owner's `completed` counter, add `XP_PER_COMPLETION`, run the achievement
check, and report success; when absent, report failure.  The record is
never removed. -/
def complete_reminder (s : EngineState) (i : ReminderId) :
    EngineState × Bool :=
  match AList.get? s.reminders i with
  | none => (s, false)
  | some r =>
      let s1 := { s with
        reminders := AList.set s.reminders i { r with completed := true } }
      let chat := r.chat_id
      let s2 := { s1 with stats := update_stats s1.stats chat .completed }
      let s3 := { s2 with stats := update_xp s2.stats chat XP_PER_COMPLETION }
      let s4 := (check_achievements s3 chat).1
      (s4, true)

/-- Translation of `MemoryPingEngine.delete_reminder` (`src/reminder_botv4.py:1452-1458`). -/
def delete_reminder (s : EngineState) (i : ReminderId) : EngineState × Bool :=
  if AList.hasKey s.reminders i then
    ({ s with reminders := AList.del s.reminders i }, true)
  else (s, false)

/-- Translation of `MemoryPingEngine.snooze_reminder` (`src/reminder_botv4.py:1460-1468`):
push the stored time forward by `minutes` and return the new time. -/
def snooze_reminder (s : EngineState) (i : ReminderId) (minutes : Nat) :
    EngineState × Option Nat :=
  match AList.get? s.reminders i with
  | none => (s, none)
  | some r =>
      let newTime := r.time + minutes
      ({ s with reminders := AList.set s.reminders i { r with time := newTime } },
       some newTime)

/-- Translation of `MemoryPingEngine.add_reminder` (`src/reminder_botv4.py:1399-1420`):
the id is built from the chat id, the due time and the CURRENT size of the
reminders dict; the record is stored and the `created` counter bumped.
(`_track_habit_pattern` touches only the habits collection, which is not
part of `EngineState`.) -/
def add_reminder (s : EngineState) (chat : Nat) (message : String)
    (remindTime : Nat) (recurring : Option Recurring)
    (category priority notes : String) (sharedWith : List Nat)
    (createdAt : Nat) : EngineState × ReminderId :=
  let i : ReminderId := (chat, remindTime, s.reminders.length)
  let r : Reminder :=
    { chat_id := chat, message := message, time := remindTime,
      recurring := recurring, category := category, priority := priority,
      notes := notes, shared_with := sharedWith, completed := false,
      created_at := createdAt }
  let s1 := { s with reminders := AList.set s.reminders i r }
  let s2 := { s1 with stats := update_stats s1.stats chat .created }
  (s2, i)

/-- The keys of the `CATEGORIES` table (`src/reminder_botv4.py:1203-1207`). -/
def CATEGORIES : List String :=
  ["work", "personal", "health", "shopping", "fitness",
   "family", "finance", "education", "other"]

/-- Translation of `MemoryPingEngine.get_user_reminders` (`src/reminder_botv4.py:1422-1435`)
with no category/priority filter: the non-completed records owned by or
shared with the chat. -/
def get_user_reminders (s : Store) (chat : Nat) : Store :=
  s.filter (fun p =>
    (p.2.chat_id == chat || p.2.shared_with.contains chat) && !p.2.completed)

/-- Translation of `MemoryPingEngine.check_time_achievements`
(`src/reminder_botv4.py:1525-1547`): ensure the achievements list exists,
then award `early_bird` (hour < 7) or `night_owl` (hour ≥ 22) once,
adding its XP. -/
def check_time_achievements (s : EngineState) (chat : Nat)
    (remindTime : Nat) : EngineState × Option String :=
  let ach := (AList.get? s.userAch chat).getD []
  let s0 :=
    if (AList.get? s.userAch chat).isNone then
      { s with userAch := AList.set s.userAch chat [] }
    else s
  let hour := remindTime % minutesPerDay / 60
  let key : Option String :=
    if hour < 7 && !(ach.contains "early_bird") then some "early_bird"
    else if hour ≥ 22 && !(ach.contains "night_owl") then some "night_owl"
    else none
  match key with
  | none => (s0, none)
  | some k =>
      let s1 := { s0 with userAch := AList.set s0.userAch chat (ach ++ [k]) }
      let s2 := { s1 with stats := update_xp s1.stats chat (achievementXP k) }
      (s2, some k)

/-- Translation of `MemoryPingEngine.check_category_achievement`
(`src/reminder_botv4.py:1549-1570`): award `organized` once when the
chat's active reminders use every category. -/
def check_category_achievement (s : EngineState) (chat : Nat) :
    EngineState × Option String :=
  match AList.get? s.userAch chat with
  | none => (s, none)
  | some ach =>
      if ach.contains "organized" then (s, none)
      else
        let used := ((get_user_reminders s.reminders chat).map
          (fun p => p.2.category)).dedup
        if used.length ≥ CATEGORIES.length then
          let s1 := { s with userAch := AList.set s.userAch chat (ach ++ ["organized"]) }
          let s2 := { s1 with stats := update_xp s1.stats chat (achievementXP "organized") }
          (s2, some "organized")
        else (s, none)

/-- What `handle_message` reports for a resolved reminder request. -/
inductive CreateOutcome where
  /-- the `"❌ That time is in the past!"` reply. -/
  | pastTimeError
  /-- the reminder was stored and a fire job armed with this delay. -/
  | created (i : ReminderId) (delay : Nat)
deriving DecidableEq, Repr

/-- The creation path of `handle_message` (`src/reminder_botv4.py:667-690`)
from the point the resolved instant `remindTime` is known: the past-time
gate (`if remind_time <= current_time`) replies with an error and returns
having mutated nothing; otherwise the reminder is stored, the achievement
checks run, and a fire job is armed with delay `remind_time -
current_time`.  Reply formatting and the habit-suggestion text are
front-end. -/
def handle_message_create (s : EngineState) (chat : Nat) (task : String)
    (remindTime currentTime : Nat) (recurring : Option Recurring)
    (category priority notes : String) (sharedWith : List Nat) :
    EngineState × CreateOutcome :=
  if remindTime ≤ currentTime then (s, .pastTimeError)
  else
    let (s1, i) := add_reminder s chat task remindTime recurring category
      priority notes sharedWith currentTime
    let s2 := (check_time_achievements s1 chat remindTime).1
    let s3 := (check_category_achievement s2 chat).1
    (s3, .created i (remindTime - currentTime))

/-- Translation of `DataManager._load_file` (`src/reminder_botv4.py:1277-1286`).  The file
system and the JSON decoder are abstracted into the argument: `none` is a
missing file, `some (.error e)` a file whose contents fail to parse,
`some (.ok a)` a file that parses to `a`.  A missing or unparseable file
yields the empty collection. -/
def load_file {α : Type} (disk : Option (Except String α)) (empty : α) : α :=
  match disk with
  | none => empty
  | some (.error _) => empty
  | some (.ok a) => a

/-- The store effect of the fire handler `send_reminder`
(`src/reminder_botv4.py:733-788`): re-read the record by id; when it is
recurring, advance its stored time by the recurrence step and arm the next
fire job (returned as id and delay `next_time - now`); when it is absent
or non-recurring, leave the store untouched (delivery itself is the
external collaborator).  The message send at the end happens in every
case. -/
def send_reminder_effect (s : Store) (i : ReminderId) (now : Nat) :
    Store × Option (ReminderId × Nat) :=
  match AList.get? s i with
  | none => (s, none)
  | some r =>
      match r.recurring with
      | none => (s, none)
      | some rule =>
          let nextT := nextOccurrence r.time rule
          (AList.set s i { r with time := nextT }, some (i, nextT - now))

/-- The `for reminder_id, reminder_data in list(...items())` loop of
`reschedule_reminders` (`src/reminder_botv4.py:921-945`): iterate over a
snapshot of the store; skip completed records; arm a job with delay
`remind_time - current_time` for future ones; delete overdue
non-recurring ones; and do nothing at all for overdue recurring ones. -/
def rescheduleLoop (now : Nat) :
    List (ReminderId × Reminder) → Store → List (ReminderId × Nat) × Store
  | [], st => ([], st)
  | (i, r) :: rest, st =>
      if r.completed then rescheduleLoop now rest st
      else if now < r.time then
        ((i, r.time - now) :: (rescheduleLoop now rest st).1,
         (rescheduleLoop now rest st).2)
      else if r.recurring = none then
        rescheduleLoop now rest (AList.del st i)
      else rescheduleLoop now rest st

/-- Translation of `reschedule_reminders` (`src/reminder_botv4.py:921-945`; the version in
`src/reminder_bot.py:1624-1666` has the same branch structure): run the
loop over a snapshot of the store, returning the armed jobs and the store
it leaves behind. -/
def reschedule_reminders (s : Store) (now : Nat) :
    List (ReminderId × Nat) × Store :=
  rescheduleLoop now s s

/-!
## Derived notions used to state the claims
-/

/-- The stats record the engine reads for a chat (`.get`-with-zero-default
view of `data_manager.stats[chat]`). -/
def statsOf (st : Stats) (chat : Nat) : UserStats :=
  (AList.get? st chat).getD {}

/-- The ids `reschedule_reminders` purges from the store: the overdue
(`remind_time <= current_time`) non-completed non-recurring ones. -/
def purgedIds (now : Nat) (snap : List (ReminderId × Reminder)) :
    List ReminderId :=
  snap.filterMap (fun p =>
    if ¬p.2.completed ∧ p.2.time ≤ now ∧ p.2.recurring = none
    then some p.1 else none)

/-- Every stored id's size component is below the store's size.  This
holds for every store reachable without deletions (ids are minted with the
current size as third component, which then grows), and it is what makes
freshly minted ids new. -/
def idsBounded (st : Store) : Prop :=
  ∀ p ∈ st, p.1.2.2 < st.length

/-- A sample one-shot pending reminder, used by concrete scenarios. -/
def oneShot (t : Nat) : Reminder :=
  { chat_id := 1, message := "call mom", time := t, recurring := none,
    category := "other", priority := "medium", notes := "",
    shared_with := [], completed := false, created_at := 0 }

/-- A sample daily-recurring pending reminder, used by concrete
scenarios. -/
def dailyStandup (t : Nat) : Reminder :=
  { chat_id := 1, message := "standup", time := t, recurring := some .daily,
    category := "work", priority := "medium", notes := "",
    shared_with := [], completed := false, created_at := 0 }

/-!
## Association-list lemmas
-/

theorem AList.get?_set_self {α β : Type} [DecidableEq α]
    (l : List (α × β)) (k : α) (v : β) :
    AList.get? (AList.set l k v) k = some v := by
  by_cases hk : AList.hasKey l k
  · simp only [AList.set, hk, if_true]
    induction l with
    | nil => simp [AList.hasKey] at hk
    | cons p t ih =>
        by_cases hp : p.1 = k
        · simp [AList.get?, hp]
        · have ht : AList.hasKey t k := by
            simpa [AList.hasKey, hp] using hk
          simpa [AList.get?, hp] using ih ht
  · simp only [AList.set, hk, if_false]
    induction l with
    | nil => simp [AList.get?]
    | cons p t ih =>
        have hp : ¬ p.1 = k := by
          intro h
          exact hk (by simp [AList.hasKey, h])
        have ht : ¬ AList.hasKey t k := by
          intro h
          apply hk
          simp only [AList.hasKey, List.any_cons] at *
          simp [h]
        simpa [AList.get?, hp] using ih ht

theorem AList.get?_mapset_ne {α β : Type} [DecidableEq α]
    (l : List (α × β)) (k k' : α) (v : β) (h : k ≠ k') :
    AList.get? (l.map (fun p => if p.1 = k then (k, v) else p)) k'
      = AList.get? l k' := by
  induction l with
  | nil => rfl
  | cons p t ih =>
      by_cases hp : p.1 = k
      · subst hp
        simp [AList.get?, h, ih]
      · by_cases hp' : p.1 = k'
        · simp [AList.get?, hp, hp', Ne.symm h]
        · simp [AList.get?, hp, hp', ih]

theorem AList.get?_append_ne {α β : Type} [DecidableEq α]
    (l : List (α × β)) (k k' : α) (v : β) (h : k ≠ k') :
    AList.get? (l ++ [(k, v)]) k' = AList.get? l k' := by
  induction l with
  | nil => simp [AList.get?, h]
  | cons p t ih =>
      by_cases hp' : p.1 = k'
      · simp [AList.get?, hp']
      · simp [AList.get?, hp', ih]

theorem AList.get?_set_ne {α β : Type} [DecidableEq α]
    (l : List (α × β)) (k k' : α) (v : β) (h : k ≠ k') :
    AList.get? (AList.set l k v) k' = AList.get? l k' := by
  by_cases hk : AList.hasKey l k
  · simp only [AList.set, hk, if_true]
    exact AList.get?_mapset_ne l k k' v h
  · simp only [AList.set, hk, if_false]
    exact AList.get?_append_ne l k k' v h

theorem AList.get?_del_self {α β : Type} [DecidableEq α]
    (l : List (α × β)) (k : α) :
    AList.get? (AList.del l k) k = none := by
  induction l with
  | nil => simp [AList.del, AList.get?]
  | cons p t ih =>
      by_cases hp : p.1 = k
      · simpa [AList.del, hp] using ih
      · simpa [AList.del, AList.get?, hp] using ih

theorem AList.keys_set_of_hasKey {α β : Type} [DecidableEq α]
    (l : List (α × β)) (k : α) (v : β) (hk : AList.hasKey l k) :
    (AList.set l k v).map Prod.fst = l.map Prod.fst := by
  simp only [AList.set, hk, if_true, List.map_map]
  apply List.map_congr_left
  intro p _
  by_cases hp : p.1 = k
  · simp [Function.comp, hp]
  · simp [Function.comp, hp]

theorem AList.set_of_not_hasKey {α β : Type} [DecidableEq α]
    (l : List (α × β)) (k : α) (v : β) (hk : ¬ AList.hasKey l k) :
    AList.set l k v = l ++ [(k, v)] := by
  simp [AList.set, hk]

theorem AList.hasKey_of_get?_some {α β : Type} [DecidableEq α]
    (l : List (α × β)) (k : α) (v : β) (h : AList.get? l k = some v) :
    AList.hasKey l k := by
  induction l with
  | nil => simp [AList.get?] at h
  | cons p t ih =>
      by_cases hp : p.1 = k
      · simp [AList.hasKey, hp]
      · simp only [AList.get?, hp, if_false] at h
        have := ih h
        simp only [AList.hasKey, List.any_cons] at *
        simp [this]

/-!
## The recurrence engine (claims C5 and C6)
-/

theorem skipWeekend_spec (d : Nat) :
    d ≤ skipWeekend d ∧ weekday (skipWeekend d) < 5 := by
  have w1 := weekday_lt_seven d
  have w2 := weekday_add_day d
  have w3 := weekday_add_day (d + minutesPerDay)
  rw [skipWeekend]
  split_ifs with h1
  · rw [skipWeekend]
    split_ifs with h2
    · rw [skipWeekend]
      split_ifs with h3
      · exfalso
        omega
      · refine ⟨?_, by omega⟩
        simp only [minutesPerDay]
        omega
    · refine ⟨?_, by omega⟩
      simp only [minutesPerDay]
      omega
  · exact ⟨Nat.le_refl d, by omega⟩

/-- C5: the recurrence step is a fixed delta per rule — daily `+1` day,
weekly `+7` days, monthly `+30` days (not calendar-month-aware) — and two
applications of the same rule advance any due time by exactly twice the
single-step delta. -/
theorem recurrence_fixed_delta_double_step :
    (∀ t, nextOccurrence t .daily = t + minutesPerDay) ∧
    (∀ t, nextOccurrence t .weekly = t + 7 * minutesPerDay) ∧
    (∀ t, nextOccurrence t .monthly = t + 30 * minutesPerDay) ∧
    (∀ t, nextOccurrence (nextOccurrence t .daily) .daily
      = t + 2 * minutesPerDay) ∧
    (∀ t, nextOccurrence (nextOccurrence t .weekly) .weekly
      = t + 2 * (7 * minutesPerDay)) ∧
    (∀ t, nextOccurrence (nextOccurrence t .monthly) .monthly
      = t + 2 * (30 * minutesPerDay)) := by
  refine ⟨fun t => rfl, fun t => rfl, fun t => rfl, fun t => ?_,
    fun t => ?_, fun t => ?_⟩ <;> simp [nextOccurrence] <;> ring

/-- C6: the `weekday` recurrence rule yields a due time at least one day
after the input and never lands on Saturday (weekday 5) or Sunday
(weekday 6). -/
theorem weekday_recurrence_next_business_day (t : Nat) :
    t + minutesPerDay ≤ nextOccurrence t .weekday ∧
    weekday (nextOccurrence t .weekday) ≠ 5 ∧
    weekday (nextOccurrence t .weekday) ≠ 6 := by
  have h := skipWeekend_spec (t + minutesPerDay)
  simp only [nextOccurrence]
  exact ⟨h.1, by omega, by omega⟩

/-!
## The time resolver (claims C3 and C4)
-/

theorem replaceTime_add_day (current h m : Nat) :
    replaceTime current h m + minutesPerDay
      = (current / minutesPerDay + 1) * minutesPerDay + (h * 60 + m) := by
  simp only [replaceTime, minutesPerDay]
  ring

/-- C3: for the keyword, 12-hour and 24-hour families, when no `tomorrow`
token is present and the computed wall-clock time is at or before the
reference, the result lands on the day after the reference date at that
same wall-clock time; and when a `tomorrow` token is present the result
lands on the next calendar day even when the computed time is strictly
after the reference.  The clock-validity bounds are the domain on which
the Python `datetime.replace` call succeeds; `rel` ranges over the two
match outcomes a non-relative expression can produce for the
relative-offset pattern (no match, or a match capturing neither group). -/
theorem parse_time_day_rollover (current : Nat) :
    (∀ (p : SpecialPhrase) (rel : Option (Option Nat × Option Nat))
        (ampm : Option (Nat × Option Nat × Period))
        (at24 : Option (Nat × Nat)),
      replaceTime current (specialHour p) 0 ≤ current →
      parse_time ⟨false, some p, rel, ampm, at24⟩ current
        = some ((current / minutesPerDay + 1) * minutesPerDay
            + specialHour p * 60)) ∧
    (∀ (p : SpecialPhrase) (rel : Option (Option Nat × Option Nat))
        (ampm : Option (Nat × Option Nat × Period))
        (at24 : Option (Nat × Nat)),
      current < replaceTime current (specialHour p) 0 →
      parse_time ⟨true, some p, rel, ampm, at24⟩ current
        = some ((current / minutesPerDay + 1) * minutesPerDay
            + specialHour p * 60)) ∧
    (∀ (h12 : Nat) (mo : Option Nat) (period : Period)
        (rel : Option (Option Nat × Option Nat))
        (at24 : Option (Nat × Nat)),
      rel = none ∨ rel = some (none, none) →
      normalizeAmPm h12 period ≤ 23 → mo.getD 0 ≤ 59 →
      replaceTime current (normalizeAmPm h12 period) (mo.getD 0) ≤ current →
      parse_time ⟨false, none, rel, some (h12, mo, period), at24⟩ current
        = some ((current / minutesPerDay + 1) * minutesPerDay
            + (normalizeAmPm h12 period * 60 + mo.getD 0))) ∧
    (∀ (h12 : Nat) (mo : Option Nat) (period : Period)
        (rel : Option (Option Nat × Option Nat))
        (at24 : Option (Nat × Nat)),
      rel = none ∨ rel = some (none, none) →
      normalizeAmPm h12 period ≤ 23 → mo.getD 0 ≤ 59 →
      current < replaceTime current (normalizeAmPm h12 period) (mo.getD 0) →
      parse_time ⟨true, none, rel, some (h12, mo, period), at24⟩ current
        = some ((current / minutesPerDay + 1) * minutesPerDay
            + (normalizeAmPm h12 period * 60 + mo.getD 0))) ∧
    (∀ (h24 m24 : Nat) (rel : Option (Option Nat × Option Nat)),
      rel = none ∨ rel = some (none, none) →
      h24 ≤ 23 → m24 ≤ 59 →
      replaceTime current h24 m24 ≤ current →
      parse_time ⟨false, none, rel, none, some (h24, m24)⟩ current
        = some ((current / minutesPerDay + 1) * minutesPerDay
            + (h24 * 60 + m24))) ∧
    (∀ (h24 m24 : Nat) (rel : Option (Option Nat × Option Nat)),
      rel = none ∨ rel = some (none, none) →
      h24 ≤ 23 → m24 ≤ 59 →
      current < replaceTime current h24 m24 →
      parse_time ⟨true, none, rel, none, some (h24, m24)⟩ current
        = some ((current / minutesPerDay + 1) * minutesPerDay
            + (h24 * 60 + m24))) := by
  refine ⟨?_, ?_, ?_, ?_, ?_, ?_⟩
  · intro p rel ampm at24 hle
    simp [parse_time, hle, replaceTime_add_day]
  · intro p rel ampm at24 _
    simp [parse_time, replaceTime_add_day]
  · intro h12 mo period rel at24 hrel _ _ hle
    rcases hrel with h | h <;> subst h <;>
      simp [parse_time, parseClockFamilies, hle, replaceTime_add_day]
  · intro h12 mo period rel at24 hrel _ _ _
    rcases hrel with h | h <;> subst h <;>
      simp [parse_time, parseClockFamilies, replaceTime_add_day]
  · intro h24 m24 rel hrel _ _ hle
    rcases hrel with h | h <;> subst h <;>
      simp [parse_time, parseClockFamilies, hle, replaceTime_add_day]
  · intro h24 m24 rel hrel _ _ _
    rcases hrel with h | h <;> subst h <;>
      simp [parse_time, parseClockFamilies, replaceTime_add_day]

/-- Witness for C3 at reference Wednesday 14:00 (minute 3720): `lunch`
(already past) rolls to Thursday 13:00; `evening tomorrow` is forced to
Thursday 18:00; `2pm` (equal to the reference) rolls to Thursday 14:00;
`5:30pm tomorrow` is forced ahead although 17:30 is still future;
`at 9:00` rolls to Thursday 09:00; `at 15:45 tomorrow` is forced ahead. -/
theorem parse_time_day_rollover_witness :
    parse_time ⟨false, some .lunch, none, none, none⟩ 3720 = some 5100 ∧
    parse_time ⟨true, some .evening, none, none, none⟩ 3720 = some 5400 ∧
    parse_time ⟨false, none, none, some (2, none, .pm), none⟩ 3720
      = some 5160 ∧
    parse_time ⟨true, none, none, some (5, some 30, .pm), none⟩ 3720
      = some 5370 ∧
    parse_time ⟨false, none, none, none, some (9, 0)⟩ 3720 = some 4860 ∧
    parse_time ⟨true, none, none, none, some (15, 45)⟩ 3720 = some 5265 := by
  obtain ⟨c1, c2, c3, c4, c5, c6⟩ := parse_time_day_rollover 3720
  refine ⟨?_, ?_, ?_, ?_, ?_, ?_⟩
  · simpa using c1 .lunch none none none (by decide)
  · simpa using c2 .evening none none none (by decide)
  · simpa using c3 2 none .pm none none (Or.inl rfl) (by decide) (by decide)
      (by decide)
  · simpa using c4 5 (some 30) .pm none none (Or.inl rfl) (by decide)
      (by decide) (by decide)
  · simpa using c5 9 0 none (Or.inl rfl) (by decide) (by decide) (by decide)
  · simpa using c6 15 45 none (Or.inl rfl) (by decide) (by decide)
      (by decide)

/-- C4: the relative-offset family matches only when at least one of the
hours/minutes groups is captured: with neither group the family is a
non-match (the parser falls through to the clock families, and fails
overall when none of them matches either); with at least one group the
result is exactly the reference plus the stated hours and minutes, with no
day roll-forward regardless of the `tomorrow` token. -/
theorem parse_time_relative_offset (current : Nat) (tom : Bool)
    (g1 g2 : Option Nat) :
    (∀ (ampm : Option (Nat × Option Nat × Period))
        (at24 : Option (Nat × Nat)),
      parse_time ⟨tom, none, some (none, none), ampm, at24⟩ current
        = parseClockFamilies ⟨tom, none, some (none, none), ampm, at24⟩
            current) ∧
    parse_time ⟨tom, none, some (none, none), none, none⟩ current = none ∧
    (g1.isSome ∨ g2.isSome →
      ∀ (ampm : Option (Nat × Option Nat × Period))
          (at24 : Option (Nat × Nat)),
        parse_time ⟨tom, none, some (g1, g2), ampm, at24⟩ current
          = some (current + (g1.getD 0) * 60 + g2.getD 0)) := by
  refine ⟨?_, ?_, ?_⟩
  · intro ampm at24
    simp [parse_time]
  · simp [parse_time, parseClockFamilies]
  · intro hg ampm at24
    have : (g1.isSome || g2.isSome) = true := by
      rcases hg with h | h <;> simp [h]
    simp [parse_time, this]

/-- Witness for C4: at reference Monday 09:00 (minute 540), `in`/`after`
with no captured groups fails, while `in 30 minutes` yields 09:30 and
`in 2h tomorrow` yields 11:00 with no day roll. -/
theorem parse_time_relative_offset_witness :
    parse_time ⟨false, none, some (none, none), none, none⟩ 540 = none ∧
    parse_time ⟨false, none, some (none, some 30), none, none⟩ 540
      = some 570 ∧
    parse_time ⟨true, none, some (some 2, none), none, none⟩ 540
      = some 660 := by
  refine ⟨(parse_time_relative_offset 540 false none none).2.1, ?_, ?_⟩
  · simpa using (parse_time_relative_offset 540 false none
      (some 30)).2.2 (Or.inr rfl) none none
  · simpa using (parse_time_relative_offset 540 true (some 2)
      none).2.2 (Or.inl rfl) none none

/-!
## Loading and creation (claims C8 and C7)
-/

/-- C8: on load, a missing backing file and a file whose contents fail to
parse both yield the empty collection, and a file that parses yields its
contents — `_load_file` never fails, so startup always proceeds. -/
theorem load_file_tolerates_missing_and_corrupt {α : Type} (empty a : α)
    (e : String) :
    load_file (α := α) none empty = empty ∧
    load_file (some (.error e)) empty = empty ∧
    load_file (some (.ok a)) empty = a :=
  ⟨rfl, rfl, rfl⟩

/-- C7: a create request whose resolved instant is not strictly after the
reference instant is rejected: the call reports the past-time error
through its return value and leaves the whole engine state — in
particular the reminder store — unchanged. -/
theorem past_time_rejected (s : EngineState) (chat : Nat) (task : String)
    (remindTime currentTime : Nat) (recurring : Option Recurring)
    (category priority notes : String) (sharedWith : List Nat)
    (h : remindTime ≤ currentTime) :
    handle_message_create s chat task remindTime currentTime recurring
      category priority notes sharedWith = (s, .pastTimeError) := by
  simp [handle_message_create, h]

/-- Witness for C7: a request resolving to the reference instant itself is
rejected and the empty state is untouched. -/
theorem past_time_rejected_witness :
    handle_message_create EngineState.empty 1 "call mom" 540 540 none
      "other" "medium" "" [] = (EngineState.empty, .pastTimeError) :=
  past_time_rejected EngineState.empty 1 "call mom" 540 540 none
    "other" "medium" "" [] (Nat.le_refl 540)

/-!
## Completion (claims C2 and C10)
-/

theorem statsOf_update_stats_completed (st : Stats) (chat : Nat) :
    statsOf (update_stats st chat .completed) chat
      = { statsOf st chat with completed := (statsOf st chat).completed + 1 } := by
  simp [statsOf, update_stats, AList.get?_set_self]

theorem statsOf_update_xp_nonneg (st : Stats) (chat : Nat) (a : Int)
    (ha : 0 ≤ a) :
    statsOf (update_xp st chat a) chat
      = { statsOf st chat with xp := (statsOf st chat).xp + a.toNat } := by
  simp only [statsOf, update_xp, AList.get?_set_self, Option.getD_some]
  congr 1
  omega

theorem milestoneLoop_state (chat c : Nat) (ach : List String) :
    ∀ (ms : List (Nat × String)) (s : EngineState),
      (milestoneLoop s chat c ach ms).1.reminders = s.reminders ∧
      ((milestoneLoop s chat c ach ms).1.stats = s.stats ∨
        ∃ n : Nat, (milestoneLoop s chat c ach ms).1.stats
          = update_xp s.stats chat (n : Int)) := by
  intro ms
  induction ms with
  | nil => intro s; exact ⟨rfl, Or.inl rfl⟩
  | cons mk rest ih =>
      intro s
      obtain ⟨m, key⟩ := mk
      by_cases hc : (c = m && !(ach.contains key)) = true
      · simp only [milestoneLoop, hc, if_true]
        by_cases hx : achievementXP key > 0
        · simp only [hx, if_true]
          exact ⟨trivial, Or.inr ⟨achievementXP key, rfl⟩⟩
        · simp only [hx, if_false]
          exact ⟨trivial, Or.inl trivial⟩
      · simp only [milestoneLoop, hc, if_false]
        exact ih s

theorem check_achievements_state (s : EngineState) (chat : Nat) :
    (check_achievements s chat).1.reminders = s.reminders ∧
    ((check_achievements s chat).1.stats = s.stats ∨
      ∃ n : Nat, (check_achievements s chat).1.stats
        = update_xp s.stats chat (n : Int)) := by
  simp only [check_achievements]
  cases hst : AList.get? s.stats chat with
  | none => exact ⟨rfl, Or.inl rfl⟩
  | some u =>
      by_cases hu : (AList.get? s.userAch chat).isNone
      · simp only [hu, if_true]
        exact milestoneLoop_state chat u.completed _ achievementMilestones _
      · simp only [hu, if_false]
        exact milestoneLoop_state chat u.completed _ achievementMilestones s

/-- Shared characterisation of one `complete_reminder` call on a present
id: it succeeds, rewrites the record in place with `completed := true`,
bumps the owner's completed counter by one, and adds at least
`XP_PER_COMPLETION` XP (exactly that plus any milestone-achievement
bonus). -/
theorem complete_reminder_spec (s : EngineState) (i : ReminderId)
    (r : Reminder) (h : AList.get? s.reminders i = some r) :
    (complete_reminder s i).2 = true ∧
    (complete_reminder s i).1.reminders
      = AList.set s.reminders i { r with completed := true } ∧
    (statsOf (complete_reminder s i).1.stats r.chat_id).completed
      = (statsOf s.stats r.chat_id).completed + 1 ∧
    (statsOf s.stats r.chat_id).xp + XP_PER_COMPLETION.toNat
      ≤ (statsOf (complete_reminder s i).1.stats r.chat_id).xp := by
  simp only [complete_reminder, h]
  set s3 : EngineState :=
    { s with
      reminders := AList.set s.reminders i { r with completed := true },
      stats := update_xp (update_stats s.stats r.chat_id .completed)
        r.chat_id XP_PER_COMPLETION } with hs3
  have hchk := check_achievements_state s3 r.chat_id
  have hs3stats :
      statsOf s3.stats r.chat_id
        = { statsOf s.stats r.chat_id with
            completed := (statsOf s.stats r.chat_id).completed + 1,
            xp := (statsOf s.stats r.chat_id).xp + XP_PER_COMPLETION.toNat } := by
    rw [hs3]
    rw [statsOf_update_xp_nonneg _ _ _ (by norm_num [XP_PER_COMPLETION]),
      statsOf_update_stats_completed]
  refine ⟨trivial, ?_, ?_, ?_⟩
  · rw [hchk.1, hs3]
  · rcases hchk.2 with hst | ⟨n, hst⟩
    · rw [hst, hs3stats]
    · rw [hst, statsOf_update_xp_nonneg _ _ _ (by positivity), hs3stats]
  · rcases hchk.2 with hst | ⟨n, hst⟩
    · rw [hst, hs3stats]
    · rw [hst, statsOf_update_xp_nonneg _ _ _ (by positivity), hs3stats]
      simp

/-- C2 counterexample: completing a stored non-recurring reminder
succeeds, yet the store still finds a record under its id afterwards (the
record is only flag-marked, not removed). -/
theorem complete_leaves_record_counterexample :
    (complete_reminder ⟨[((1, 540, 0), oneShot 540)], [], []⟩
      (1, 540, 0)).2 = true ∧
    AList.get? (complete_reminder ⟨[((1, 540, 0), oneShot 540)], [], []⟩
      (1, 540, 0)).1.reminders (1, 540, 0)
      = some { oneShot 540 with completed := true } := by
  decide

/-- C2 (amended): completing a stored reminder succeeds and rewrites its
record in place with `completed := true` — the record stays in the store;
the fire handler leaves the store untouched for a non-recurring reminder;
only explicit deletion removes the record. -/
theorem delivered_or_completed_record_retained (s : EngineState)
    (i : ReminderId) (r : Reminder) (now : Nat)
    (h : AList.get? s.reminders i = some r) :
    (complete_reminder s i).2 = true ∧
    AList.get? (complete_reminder s i).1.reminders i
      = some { r with completed := true } ∧
    (r.recurring = none →
      send_reminder_effect s.reminders i now = (s.reminders, none)) ∧
    AList.get? (delete_reminder s i).1.reminders i = none := by
  obtain ⟨h1, h2, _, _⟩ := complete_reminder_spec s i r h
  refine ⟨h1, ?_, ?_, ?_⟩
  · rw [h2, AList.get?_set_self]
  · intro hr
    simp [send_reminder_effect, h, hr]
  · have hk := AList.hasKey_of_get?_some _ _ _ h
    simp [delete_reminder, hk, AList.get?_del_self]

/-- Witness for the amended C2 on a concrete one-reminder store. -/
theorem delivered_or_completed_record_retained_witness :
    (complete_reminder ⟨[((1, 540, 0), oneShot 540)], [], []⟩
      (1, 540, 0)).2 = true ∧
    AList.get? (complete_reminder ⟨[((1, 540, 0), oneShot 540)], [], []⟩
      (1, 540, 0)).1.reminders (1, 540, 0)
      = some { oneShot 540 with completed := true } ∧
    ((oneShot 540).recurring = none →
      send_reminder_effect [((1, 540, 0), oneShot 540)] (1, 540, 0) 600
        = ([((1, 540, 0), oneShot 540)], none)) ∧
    AList.get? (delete_reminder ⟨[((1, 540, 0), oneShot 540)], [], []⟩
      (1, 540, 0)).1.reminders (1, 540, 0) = none :=
  delivered_or_completed_record_retained
    ⟨[((1, 540, 0), oneShot 540)], [], []⟩ (1, 540, 0) (oneShot 540) 600
    (by decide)

/-- C10: completion is not idempotent — on any store where the id is
present (even already marked completed), `complete_reminder` succeeds,
and doing it twice bumps the owner's completed counter by two and awards
completion XP both times. -/
theorem completion_not_idempotent (s : EngineState) (i : ReminderId)
    (r : Reminder) (h : AList.get? s.reminders i = some r) :
    (complete_reminder s i).2 = true ∧
    (complete_reminder (complete_reminder s i).1 i).2 = true ∧
    (statsOf (complete_reminder s i).1.stats r.chat_id).completed
      = (statsOf s.stats r.chat_id).completed + 1 ∧
    (statsOf s.stats r.chat_id).xp + XP_PER_COMPLETION.toNat
      ≤ (statsOf (complete_reminder s i).1.stats r.chat_id).xp ∧
    (statsOf (complete_reminder (complete_reminder s i).1 i).1.stats
        r.chat_id).completed
      = (statsOf s.stats r.chat_id).completed + 2 ∧
    (statsOf s.stats r.chat_id).xp + 2 * XP_PER_COMPLETION.toNat
      ≤ (statsOf (complete_reminder (complete_reminder s i).1 i).1.stats
          r.chat_id).xp := by
  obtain ⟨h1, hrem, hcomp, hxp⟩ := complete_reminder_spec s i r h
  have h' : AList.get? (complete_reminder s i).1.reminders i
      = some { r with completed := true } := by
    rw [hrem, AList.get?_set_self]
  obtain ⟨h2, _, hcomp2, hxp2⟩ := complete_reminder_spec _ i _ h'
  have e1 : ({ r with completed := true } : Reminder).chat_id = r.chat_id :=
    rfl
  rw [e1] at hcomp2 hxp2
  exact ⟨h1, h2, hcomp, hxp, by omega, by omega⟩

/-- Witness for C10 on a store whose single record is ALREADY marked
completed: both calls succeed and the counters advance twice. -/
theorem completion_not_idempotent_witness :
    (complete_reminder
      ⟨[((1, 540, 0), { oneShot 540 with completed := true })], [], []⟩
      (1, 540, 0)).2 = true ∧
    (complete_reminder (complete_reminder
      ⟨[((1, 540, 0), { oneShot 540 with completed := true })], [], []⟩
      (1, 540, 0)).1 (1, 540, 0)).2 = true ∧
    (statsOf (complete_reminder
      ⟨[((1, 540, 0), { oneShot 540 with completed := true })], [], []⟩
      (1, 540, 0)).1.stats 1).completed
      = (statsOf ([] : Stats) 1).completed + 1 ∧
    (statsOf ([] : Stats) 1).xp + XP_PER_COMPLETION.toNat
      ≤ (statsOf (complete_reminder
          ⟨[((1, 540, 0), { oneShot 540 with completed := true })], [], []⟩
          (1, 540, 0)).1.stats 1).xp ∧
    (statsOf (complete_reminder (complete_reminder
      ⟨[((1, 540, 0), { oneShot 540 with completed := true })], [], []⟩
      (1, 540, 0)).1 (1, 540, 0)).1.stats 1).completed
      = (statsOf ([] : Stats) 1).completed + 2 ∧
    (statsOf ([] : Stats) 1).xp + 2 * XP_PER_COMPLETION.toNat
      ≤ (statsOf (complete_reminder (complete_reminder
          ⟨[((1, 540, 0), { oneShot 540 with completed := true })], [], []⟩
          (1, 540, 0)).1 (1, 540, 0)).1.stats 1).xp :=
  completion_not_idempotent
    ⟨[((1, 540, 0), { oneShot 540 with completed := true })], [], []⟩
    (1, 540, 0) { oneShot 540 with completed := true } (by decide)

/-!
## Reminder ids (claim C9)
-/

/-- C9 counterexample: an id IS reused after deletion — create, delete,
then create again with the same owner and due time mints the identical id
`(1, 540, 0)` both times. -/
theorem reminder_id_reused_counterexample :
    (let first := add_reminder EngineState.empty 1 "call mom" 540 none
        "other" "medium" "" [] 0
     let again := add_reminder (delete_reminder first.1 first.2).1 1
        "call mom" 540 none "other" "medium" "" [] 0
     again.2 = first.2 ∧ first.2 = (1, 540, 0)) := by
  decide

/-- C9 (amended): as long as no deletion has occurred — captured by the
`idsBounded` invariant, which holds for every store built by creations
only — a newly minted id differs from every stored id and the invariant
is preserved; and no operation rewrites the id under which a record is
stored (completion and snooze keep the key list unchanged).  After a
deletion the invariant can break and ids can be reused (see the
counterexample). -/
theorem reminder_ids_fresh_and_stable (s : EngineState) (chat : Nat)
    (message : String) (remindTime : Nat) (recurring : Option Recurring)
    (category priority notes : String) (sharedWith : List Nat)
    (createdAt : Nat) (i : ReminderId) (m : Nat)
    (hb : idsBounded s.reminders) :
    AList.hasKey s.reminders
      (add_reminder s chat message remindTime recurring category priority
        notes sharedWith createdAt).2 = false ∧
    idsBounded (add_reminder s chat message remindTime recurring category
      priority notes sharedWith createdAt).1.reminders ∧
    (complete_reminder s i).1.reminders.map Prod.fst
      = s.reminders.map Prod.fst ∧
    (snooze_reminder s i m).1.reminders.map Prod.fst
      = s.reminders.map Prod.fst := by
  have hfresh : AList.hasKey s.reminders
      (chat, remindTime, s.reminders.length) = false := by
    rw [AList.hasKey]
    by_contra hcon
    rw [Bool.not_eq_false, List.any_eq_true] at hcon
    obtain ⟨p, hp, hpk⟩ := hcon
    have hlt := hb p hp
    rw [of_decide_eq_true hpk] at hlt
    exact absurd hlt (by simp)
  have hid : (add_reminder s chat message remindTime recurring category
      priority notes sharedWith createdAt).2
        = (chat, remindTime, s.reminders.length) := rfl
  have hrem : (add_reminder s chat message remindTime recurring category
      priority notes sharedWith createdAt).1.reminders
        = s.reminders ++ [((chat, remindTime, s.reminders.length),
            { chat_id := chat, message := message, time := remindTime,
              recurring := recurring, category := category,
              priority := priority, notes := notes,
              shared_with := sharedWith, completed := false,
              created_at := createdAt })] := by
    simp only [add_reminder]
    exact AList.set_of_not_hasKey _ _ _ (by simp [hfresh])
  refine ⟨by rw [hid]; exact hfresh, ?_, ?_, ?_⟩
  · rw [hrem]
    intro p hp
    rcases List.mem_append.mp hp with hp' | hp'
    · have := hb p hp'
      simp only [List.length_append, List.length_singleton]
      omega
    · have hp2 : p.1.2.2 = s.reminders.length := by
        rcases List.mem_singleton.mp hp' with rfl
        rfl
      simp only [List.length_append, List.length_singleton]
      omega
  · cases hg : AList.get? s.reminders i with
    | none => simp [complete_reminder, hg]
    | some r =>
        obtain ⟨_, h2, _, _⟩ := complete_reminder_spec s i r hg
        rw [h2]
        exact AList.keys_set_of_hasKey _ _ _
          (AList.hasKey_of_get?_some _ _ _ hg)
  · cases hg : AList.get? s.reminders i with
    | none => simp [snooze_reminder, hg]
    | some r =>
        simp only [snooze_reminder, hg]
        exact AList.keys_set_of_hasKey _ _ _
          (AList.hasKey_of_get?_some _ _ _ hg)

/-- Witness for the amended C9 at the empty store. -/
theorem reminder_ids_fresh_and_stable_witness :
    AList.hasKey EngineState.empty.reminders
      (add_reminder EngineState.empty 1 "call mom" 540 none "other"
        "medium" "" [] 0).2 = false ∧
    idsBounded (add_reminder EngineState.empty 1 "call mom" 540 none
      "other" "medium" "" [] 0).1.reminders ∧
    (complete_reminder EngineState.empty (1, 540, 0)).1.reminders.map
      Prod.fst = EngineState.empty.reminders.map Prod.fst ∧
    (snooze_reminder EngineState.empty (1, 540, 0) 5).1.reminders.map
      Prod.fst = EngineState.empty.reminders.map Prod.fst :=
  reminder_ids_fresh_and_stable EngineState.empty 1 "call mom" 540 none
    "other" "medium" "" [] 0 (1, 540, 0) 5
    (fun p hp => absurd hp (List.not_mem_nil p))

/-!
## Restart rescheduling (claim C1)
-/

theorem rescheduleLoop_jobs (now : Nat) :
    ∀ (snap : List (ReminderId × Reminder)) (st : Store),
      (rescheduleLoop now snap st).1
        = snap.filterMap (fun p =>
            if ¬p.2.completed ∧ now < p.2.time
            then some (p.1, p.2.time - now) else none) := by
  intro snap
  induction snap with
  | nil => intro st; rfl
  | cons hd rest ih =>
      intro st
      obtain ⟨i, r⟩ := hd
      by_cases h1 : r.completed
      · simp [rescheduleLoop, h1, ih]
      · by_cases h2 : now < r.time
        · simp [rescheduleLoop, h1, h2, ih]
        · by_cases h3 : r.recurring = none
          · simp [rescheduleLoop, h1, h2, h3, ih]
          · simp [rescheduleLoop, h1, h2, h3, ih]

theorem purgedIds_cons (now : Nat) (i : ReminderId) (r : Reminder)
    (rest : List (ReminderId × Reminder)) :
    purgedIds now ((i, r) :: rest)
      = if ¬r.completed ∧ r.time ≤ now ∧ r.recurring = none
        then i :: purgedIds now rest else purgedIds now rest := by
  simp only [purgedIds, List.filterMap_cons]
  split_ifs with h
  · rfl
  · rfl

theorem rescheduleLoop_store (now : Nat) :
    ∀ (snap : List (ReminderId × Reminder)) (st : Store),
      (rescheduleLoop now snap st).2
        = st.filter (fun p => decide (p.1 ∉ purgedIds now snap)) := by
  intro snap
  induction snap with
  | nil =>
      intro st
      simp [purgedIds, rescheduleLoop]
  | cons hd rest ih =>
      intro st
      obtain ⟨i, r⟩ := hd
      by_cases h1 : r.completed
      · simp only [rescheduleLoop]
        rw [if_pos h1, ih, purgedIds_cons,
          if_neg (by simp [h1])]
      · by_cases h2 : now < r.time
        · simp only [rescheduleLoop]
          rw [if_neg h1, if_pos h2]
          simp only [ih]
          rw [purgedIds_cons, if_neg (fun hc => absurd hc.2.1 (by omega))]
        · by_cases h3 : r.recurring = none
          · have h2' : r.time ≤ now := by omega
            simp only [rescheduleLoop]
            rw [if_neg h1, if_neg h2, if_pos h3, ih, purgedIds_cons,
              if_pos ⟨h1, h2', h3⟩]
            rw [AList.del, List.filter_filter]
            refine List.filter_congr ?_
            intro a _
            by_cases hai : a.1 = i <;>
              by_cases ham : a.1 ∈ purgedIds now rest <;>
                simp [hai, ham, List.mem_cons]
          · simp only [rescheduleLoop]
            rw [if_neg h1, if_neg h2, if_neg h3, ih, purgedIds_cons,
              if_neg (fun hc => absurd hc.2.2 h3)]

/-- C1 counterexample, the spec's own restart scenario: a store holding an
overdue one-shot reminder and an overdue daily reminder, rescheduled at
minute 2040.  The one-shot is purged as claimed, but NO job is armed for
the daily reminder — it is left in the store unarmed instead of being
resumed through an immediate-fire path. -/
theorem overdue_recurring_not_rearmed_counterexample :
    reschedule_reminders
      [((1, 540, 0), oneShot 540), ((1, 540, 1), dailyStandup 540)] 2040
      = ([], [((1, 540, 1), dailyStandup 540)]) := by
  decide

/-- C1 (amended): on restart, for every stored non-completed reminder, a
future one is re-armed with delay `due_at - now`; an overdue one is never
armed (jobs exist exactly for the future ones), so an overdue one-shot is
purged without being delivered — and an overdue recurring one is NOT
resumed: it stays in the store (only overdue non-completed non-recurring
ids are purged) with no timer armed for it. -/
theorem reschedule_arms_future_purges_overdue_oneshot (s : Store)
    (now : Nat) :
    (reschedule_reminders s now).1
      = s.filterMap (fun p =>
          if ¬p.2.completed ∧ now < p.2.time
          then some (p.1, p.2.time - now) else none) ∧
    (reschedule_reminders s now).2
      = s.filter (fun p => decide (p.1 ∉ purgedIds now s)) :=
  ⟨rescheduleLoop_jobs now s s, rescheduleLoop_store now s s⟩

end MemoryPing
